import Mathlib

/-!
Shallow embedding of the libhip HIP codec (src/libhip/hip.py).

Byte strings are modelled as List Nat (each element intended to be < 256).
Python exceptions are modelled by the PyError type: valueError carries the
exact message raised by the source, typeError likewise, assertionError is a
failed assert statement, structError is struct.error from struct.pack and
struct.unpack_from.  Fallible functions return Except PyError.

Machine integers: struct "<I" fields are modelled as Nat with explicit
% 4294967296 and range checks where the source (Python struct) checks them.
-/

inductive PyError where
  | valueError (msg : String)
  | typeError (msg : String)
  | assertionError
  | structError
deriving DecidableEq, Repr

instance {ε α : Type} [DecidableEq ε] [DecidableEq α] : DecidableEq (Except ε α) := fun a b =>
  match a, b with
  | .error e, .error f => decidable_of_iff (e = f) (by simp)
  | .ok x, .ok y => decidable_of_iff (x = y) (by simp)
  | .error _, .ok _ => isFalse (by simp)
  | .ok _, .error _ => isFalse (by simp)

/-- The 4-byte HIP signature b"HIP\x00" (HIP_PREFIX in the source). -/
def HIP_SIG : List Nat := [72, 73, 80, 0]

/-- Little-endian encoding of a u32 value (struct.pack "<I"), as 4 bytes. -/
def u32le (v : Nat) : List Nat :=
  [v % 256, v / 256 % 256, v / 65536 % 256, v / 16777216 % 256]

/-- Little-endian decoding of 4 bytes to a u32 value (struct.unpack "<I"). -/
def le32 (b0 b1 b2 b3 : Nat) : Nat :=
  b0 + 256 * b1 + 65536 * b2 + 16777216 * b3

/-- struct.unpack_from for n little-endian u32 fields; also returns the
bytes after the consumed prefix, as the source helper _unpack_from does.
Raises struct.error when the data is too short. -/
def unpackU32s : Nat → List Nat → Except PyError (List Nat × List Nat)
  | 0, data => pure ([], data)
  | n + 1, b0 :: b1 :: b2 :: b3 :: rest =>
      (fun r => (le32 b0 b1 b2 b3 :: r.1, r.2)) <$> unpackU32s n rest
  | _ + 1, _ => Except.error PyError.structError

/-- struct.pack of a sequence of "<I" fields; struct.error when a value
does not fit in 32 bits. -/
def packU32s : List Nat → Except PyError (List Nat)
  | [] => pure []
  | v :: vs =>
      if v < 4294967296 then (u32le v ++ ·) <$> packU32s vs
      else Except.error PyError.structError

/-- Embedding of _parse_header: validate the signature, unpack the seven
u32 base-header fields, check fileSize, and read the geometry either from
the palette sub-header (numColors nonzero) or the base header. -/
def parse_header (hip_contents : List Nat) :
    Except PyError (Nat × Nat × Nat × List Nat) := do
  if ¬ HIP_SIG.isPrefixOf hip_contents then
    Except.error (PyError.valueError "Not valid HIP file! Missing HIP file header prefix!")
  else do
    let remaining := hip_contents.drop 4
    let (header, remaining) ← unpackU32s 7 remaining
    let hip_file_size := header.getD 1 0
    if hip_file_size ≠ hip_contents.length then
      Except.error (PyError.valueError "Not valid HIP file! File size mismatch!")
    else do
      let num_colors := header.getD 2 0
      if num_colors ≠ 0 then
        if num_colors < 256 then
          Except.error (PyError.valueError
            s!"Image contains {num_colors} colors which is less than 256!")
        else do
          let (palette_header, remaining) ← unpackU32s 8 remaining
          pure (num_colors, palette_header.getD 0 0, palette_header.getD 1 0, remaining)
      else
        pure (num_colors, header.getD 3 0, header.getD 4 0, remaining)

/-- The entry loop of _parse_palette: split the on-disk palette blob into
(B,G,R) triples and alpha bytes; a trailing partial entry desynchronizes
the two channels and raises the mismatch ValueError. -/
def parsePaletteAux : List Nat → Except PyError (List Nat × List Nat)
  | [] => pure ([], [])
  | b :: g :: r :: a :: rest =>
      (fun p => (b :: g :: r :: p.1, a :: p.2)) <$> parsePaletteAux rest
  | _ => Except.error (PyError.valueError "Mismatch between RGB and transparency data!")

/-- Embedding of _parse_palette: take numColors 4-byte entries, separate
color and alpha data, check the 3:1 length ratio and return both tables
reversed (the transposition to logical order) plus the remaining bytes. -/
def parse_palette (num_colors : Nat) (hip_contents : List Nat) :
    Except PyError (List Nat × List Nat × List Nat) := do
  let palette_size := num_colors * 4
  let (palette_data, alpha_data) ← parsePaletteAux (hip_contents.take palette_size)
  if palette_data.length ≠ 3 * alpha_data.length then
    Except.error (PyError.valueError "Mismatch between RGB and transparency data!")
  else
    pure (palette_data.reverse, alpha_data.reverse, hip_contents.drop palette_size)

/-- The chunk loop of _parse_palette_image_data: 2-byte chunks
(storedIndex, count); palette_index = num_colors - storedIndex - 1 and the
chunk emits count pixels of that index.  A 1-byte trailing chunk fails the
assert len(color_data) == HIP_PAL_IMG_CHUNK_SIZE.  A palette index outside
0..255 raises bytearray range ValueError (only when count is nonzero,
since bytearray(() ) checks nothing). -/
def ppidAux (num_colors : Nat) : List Nat → Except PyError (List Nat)
  | [] => pure []
  | color :: npx :: rest =>
      let palette_index : Int := (num_colors : Int) - (color : Int) - 1
      if (palette_index < 0 ∨ 255 < palette_index) ∧ npx ≠ 0 then
        Except.error (PyError.valueError "byte must be in range(0, 256)")
      else
        (fun d => List.replicate npx palette_index.toNat ++ d) <$> ppidAux num_colors rest
  | _ :: [] => Except.error PyError.assertionError

/-- Embedding of _parse_palette_image_data: decode the chunk stream and
check the emitted pixel count against width*height. -/
def parse_palette_image_data (width height num_colors : Nat) (hip_contents : List Nat) :
    Except PyError (List Nat) := do
  let total_pixels := width * height
  let data ← ppidAux num_colors hip_contents
  if data.length ≠ total_pixels then
    Except.error (PyError.valueError "Image data length mismatch!")
  else
    pure data

/-- The chunk loop of _parse_raw_image_data: 5-byte chunks (B,G,R,A,count);
each chunk emits count copies of the RGBA quadruple (channel-swapped from
the stored BGR order).  A 1..4-byte trailing chunk fails the assert
len(color_data) == HIP_RAW_IMG_CHUNK_SIZE. -/
def pridAux : List Nat → Except PyError (List Nat)
  | [] => pure []
  | b :: g :: r :: a :: npx :: rest =>
      (fun d => (List.replicate npx [r, g, b, a]).flatten ++ d) <$> pridAux rest
  | _ => Except.error PyError.assertionError

/-- Embedding of _parse_raw_image_data: decode the chunk stream and check
len(image) // 4 against width*height. -/
def parse_raw_image_data (width height : Nat) (hip_contents : List Nat) :
    Except PyError (List Nat) := do
  let total_pixels := width * height
  let image ← pridAux hip_contents
  if image.length / 4 ≠ total_pixels then
    Except.error (PyError.valueError "Image data length mismatch!")
  else
    pure image

/-- Embedding of _load_hip (io.BytesIO input): parse the header, then for
indexed files the palette and the indexed chunk stream, else the
direct-color chunk stream. -/
def load_hip (hip_contents : List Nat) :
    Except PyError ((Nat × Nat) × List Nat × List Nat × List Nat) := do
  let (num_colors, width, height, remaining) ← parse_header hip_contents
  if 0 < num_colors then do
    let (palette, alpha, remaining) ← parse_palette num_colors remaining
    let image ← parse_palette_image_data width height num_colors remaining
    pure ((width, height), image, palette, alpha)
  else do
    let image ← parse_raw_image_data width height remaining
    pure ((width, height), image, [], [])

/-- Embedding of _build_header.  PALETTE_IMAGE_TYPE is "P",
RAW_IMAGE_TYPE is "RGBA"; struct.pack "<I" raises struct.error for values
not fitting in 32 bits. -/
def build_header (image_dimensions : Nat × Nat) (image_type : String)
    (image_data_size palette_data_size : Nat) : Except PyError (List Nat) := do
  let palette_header_size := if image_type = "P" then 32 else 0
  let file_size := 4 + 28 + palette_header_size + palette_data_size + image_data_size
  let unknown_00 := 0x125
  let (unknown_05, num_colors, width1, height1) :=
    if image_type = "P" then ((0 : Nat), (256 : Nat), (0 : Nat), (0 : Nat))
    else (0x110, 0, image_dimensions.1, image_dimensions.2)
  let color_depth := num_colors / 8
  let packed ← packU32s [unknown_00, file_size, num_colors, width1, height1, unknown_05, color_depth]
  let header := HIP_SIG ++ packed
  if image_type = "P" then do
    let sub ← packU32s [image_dimensions.1, image_dimensions.2, 0, 0, 0, 0, 0, 0]
    pure (header ++ sub)
  else
    pure header

/-- The entry loop of _build_palette: re-interleave the (already reversed)
color triples and alpha bytes into 4-byte on-disk entries. -/
def buildPaletteAux : List Nat → List Nat → Except PyError (List Nat)
  | [], [] => pure []
  | b :: g :: r :: pd, a :: ad =>
      (fun out => b :: g :: r :: a :: out) <$> buildPaletteAux pd ad
  | _, _ => Except.error (PyError.valueError "Mismatch between RGB and transparency data!")

/-- Embedding of _build_palette: reverse both logical tables back to disk
order, check the 3:1 ratio, interleave, and check the final 1024-byte
size (HIP_MAX_COLORS * 4). -/
def build_palette (palette_data alpha : List Nat) : Except PyError (List Nat) := do
  let pd := palette_data.reverse
  let al := alpha.reverse
  if pd.length ≠ 3 * al.length then
    Except.error (PyError.valueError "Mismatch between RGB and transparency data!")
  else do
    let hip_palette_data ← buildPaletteAux pd al
    if hip_palette_data.length ≠ 1024 then
      Except.error (PyError.valueError "Mismatch between RGB and transparency data!")
    else
      pure hip_palette_data

/-- The run loop of _build_palette_image: current_index starts at -1 (so
it is an Int), count at 0; a chunk (last_index - current_index, count) is
flushed on an index change with a pending count or when the count reaches
MAX_BYTE_VALUE = 255, and once more at the end if a count is pending. -/
def bpiAux : Int → Nat → List Nat → List Nat → List Nat
  | current_index, count, acc, [] =>
      if count ≠ 0 then acc ++ [(255 - current_index).toNat, count] else acc
  | current_index, count, acc, palette_index :: rest =>
      if ((palette_index : Int) ≠ current_index ∧ 0 < count) ∨ 255 ≤ count then
        bpiAux palette_index 1 (acc ++ [(255 - current_index).toNat, count]) rest
      else
        bpiAux palette_index (count + 1) acc rest

/-- Embedding of _build_palette_image. -/
def build_palette_image (image_data : List Nat) : List Nat :=
  bpiAux (-1) 0 [] image_data

/-- The run loop of _build_raw_image: pixels are read as 4-byte RGBA
groups, stored colors are the BGRA reordering, runs are coalesced exactly
as in the indexed encoder; a trailing partial group desynchronizes bgr
and alpha and raises the mismatch ValueError. -/
def briAux : List Nat → Nat → List Nat → List Nat → Except PyError (List Nat)
  | current_color, count, acc, [] =>
      pure (if count ≠ 0 then acc ++ current_color ++ [count] else acc)
  | current_color, count, acc, r :: g :: b :: a :: rest =>
      let color := [b, g, r, a]
      if (color ≠ current_color ∧ 0 < count) ∨ 255 ≤ count then
        briAux color 1 (acc ++ current_color ++ [count]) rest
      else
        briAux color (count + 1) acc rest
  | _, _, _, _ =>
      Except.error (PyError.valueError "Mismatch between RGB and transparency data!")

/-- Embedding of _build_raw_image: current_color starts as the empty
bytes object, count at 0. -/
def build_raw_image (image_data : List Nat) : Except PyError (List Nat) :=
  briAux [] 0 [] image_data

/-- Embedding of _save_hip (io.BytesIO output, modelled as the written
byte string): palette image when palette and alpha are both nonempty, raw
image when both are empty, TypeError otherwise. -/
def save_hip (image_size : Nat × Nat) (image palette alpha : List Nat) :
    Except PyError (List Nat) :=
  if palette ≠ [] ∧ alpha ≠ [] then do
    let hip_palette_data ← build_palette palette alpha
    let hip_image_data := build_palette_image image
    let header ← build_header image_size "P" hip_image_data.length hip_palette_data.length
    pure (header ++ hip_palette_data ++ hip_image_data)
  else if palette = [] ∧ alpha = [] then do
    let hip_image_data ← build_raw_image image
    let header ← build_header image_size "RGBA" hip_image_data.length 0
    pure (header ++ hip_image_data)
  else
    Except.error (PyError.typeError "Unsupported image type!")

/-- HIP to neutral to HIP round trip: load a HIP byte string and save the
resulting container again. -/
def hipRoundTrip (b : List Nat) : Except PyError (List Nat) := do
  let r ← load_hip b
  save_hip r.1 r.2.1 r.2.2.1 r.2.2.2

/-- Palette blob round trip: decode a disk palette blob to logical order
and re-encode it to disk order. -/
def paletteRoundTrip (x : List Nat) : Except PyError (List Nat) := do
  let r ← parse_palette 256 x
  build_palette r.1 r.2.1

/-- A HIP base header as a byte string: signature followed by the seven
little-endian u32 fields. -/
def mkHipHeader (uA fs nc w h uB cd : Nat) : List Nat :=
  HIP_SIG ++ ([uA, fs, nc, w, h, uB, cd].map u32le).flatten

/-- Sum of the run counts of a 2-byte-chunk stream (second byte of each
chunk; an incomplete final chunk has no count). -/
def sumCounts2 : List Nat → Nat
  | _ :: n :: rest => n + sumCounts2 rest
  | _ => 0

/-- Sum of the run counts of a 5-byte-chunk stream (fifth byte of each
chunk; an incomplete final chunk has no count). -/
def sumCounts5 : List Nat → Nat
  | _ :: _ :: _ :: _ :: n :: rest => n + sumCounts5 rest
  | _ => 0

/-- The counts of a 2-byte-chunk stream, in order. -/
def chunkCounts : List Nat → List Nat
  | _ :: n :: rest => n :: chunkCounts rest
  | _ => []

/-- Maximal-run decomposition of a list: groupRuns l is the list of
(value, run length) pairs of the maximal runs of l, in order. -/
def groupRuns {α : Type} [DecidableEq α] : List α → List (α × Nat)
  | [] => []
  | p :: ps =>
    match groupRuns ps with
    | [] => [(p, 1)]
    | (q, k) :: rs => if p = q then (q, k + 1) :: rs else (p, 1) :: (q, k) :: rs

/-- Rebuild the pixel list denoted by a run decomposition. -/
def runsJoin {α : Type} (rs : List (α × Nat)) : List α :=
  (rs.map (fun r => List.replicate r.2 r.1)).flatten

/-- The chunk bytes the indexed RLE encoder emits for one maximal run of
n > 0 pixels of logical index p: (n-1)/255 chunks of count 255 followed
by a final chunk of count (n-1) % 255 + 1, all with stored index 255-p;
that is ceil(n/255) chunks in total. -/
def chunkBytesFor (p n : Nat) : List Nat :=
  (List.replicate ((n - 1) / 255) [255 - p, 255]).flatten ++ [255 - p, (n - 1) % 255 + 1]

/-- Indexed RLE encoding of a whole run decomposition. -/
def bytesOfRuns (rs : List (Nat × Nat)) : List Nat :=
  (rs.map (fun r => chunkBytesFor r.1 r.2)).flatten

/-- An RGBA pixel quadruple flattened in logical (R,G,B,A) byte order. -/
def rgbaFlat (c : Nat × Nat × Nat × Nat) : List Nat :=
  [c.1, c.2.1, c.2.2.1, c.2.2.2]

/-- An RGBA pixel quadruple flattened in stored (B,G,R,A) byte order. -/
def bgraFlat (c : Nat × Nat × Nat × Nat) : List Nat :=
  [c.2.2.1, c.2.1, c.1, c.2.2.2]

/-- Flatten a list of RGBA quadruples to the raw pixel byte buffer. -/
def flatQuads (l : List (Nat × Nat × Nat × Nat)) : List Nat :=
  (l.map rgbaFlat).flatten

/-- Group a raw RGBA pixel byte buffer into quadruples. -/
def toQuads : List Nat → List (Nat × Nat × Nat × Nat)
  | r :: g :: b :: a :: rest => (r, g, b, a) :: toQuads rest
  | _ => []

/-- The chunk bytes the direct-color RLE encoder emits for one maximal
run of n > 0 pixels of color c. -/
def rawChunkBytesFor (c : Nat × Nat × Nat × Nat) (n : Nat) : List Nat :=
  (List.replicate ((n - 1) / 255) (bgraFlat c ++ [255])).flatten ++ bgraFlat c ++ [(n - 1) % 255 + 1]

/-- Direct-color RLE encoding of a whole run decomposition. -/
def rawBytesOfRuns (rs : List ((Nat × Nat × Nat × Nat) × Nat)) : List Nat :=
  (rs.map (fun r => rawChunkBytesFor r.1 r.2)).flatten

/-- Discriminator for the ValueError constructor of PyError. -/
def PyError.isValueError : PyError → Bool
  | .valueError _ => true
  | _ => false

/-- A sample indexed HIP byte string produced by the encoder (1x1 image,
one pixel of index 3, constant palette and alpha tables). -/
def c1IndexedSampleBytes : List Nat :=
  (save_hip (1, 1) [3] (List.replicate 768 7) (List.replicate 256 9)).toOption.getD []

/-- A sample direct-color HIP byte string produced by the encoder (1x1
image, one RGBA pixel). -/
def c1DirectSampleBytes : List Nat :=
  (save_hip (1, 1) [1, 2, 3, 4] [] []).toOption.getD []

theorem le32_u32le (v : Nat) :
    le32 (v % 256) (v / 256 % 256) (v / 65536 % 256) (v / 16777216 % 256) = v % 4294967296 := by
  simp only [le32]
  omega

theorem u32le_length (v : Nat) : (u32le v).length = 4 := rfl

theorem unpack_u32le_cons (n v : Nat) (rest : List Nat) :
    unpackU32s (n + 1) (u32le v ++ rest) =
      (fun r => (v % 4294967296 :: r.1, r.2)) <$> unpackU32s n rest := by
  simp [u32le, unpackU32s, le32_u32le v]

theorem unpack_flatten (vs : List Nat) (rest : List Nat) :
    unpackU32s vs.length ((vs.map u32le).flatten ++ rest) =
      Except.ok (vs.map (· % 4294967296), rest) := by
  induction vs with
  | nil => rfl
  | cons v vs ih =>
      simp only [List.map_cons, List.flatten_cons, List.length_cons, List.append_assoc]
      rw [unpack_u32le_cons, ih]
      rfl

theorem pack_ok_of (vs : List Nat) (h : ∀ v ∈ vs, v < 4294967296) :
    packU32s vs = Except.ok ((vs.map u32le).flatten) := by
  induction vs with
  | nil => rfl
  | cons v vs ih =>
      have hv : v < 4294967296 := h v (by simp)
      rw [packU32s, if_pos hv, ih (fun x hx => h x (by simp [hx]))]
      rfl

theorem pack_ok_inv (vs out : List Nat) (h : packU32s vs = Except.ok out) :
    (∀ v ∈ vs, v < 4294967296) ∧ out = (vs.map u32le).flatten := by
  induction vs generalizing out with
  | nil =>
      simp only [packU32s, pure] at h
      cases h
      simp
  | cons v vs ih =>
      rw [packU32s] at h
      by_cases hv : v < 4294967296
      · rw [if_pos hv] at h
        cases hpk : packU32s vs with
        | error e => rw [hpk] at h; cases h
        | ok o =>
            rw [hpk] at h
            cases h
            obtain ⟨h1, h2⟩ := ih o hpk
            refine ⟨?_, by simp [h2]⟩
            intro x hx
            rcases List.mem_cons.mp hx with rfl | hx
            · exact hv
            · exact h1 x hx
      · rw [if_neg hv] at h
        cases h

theorem hipsig_isPrefixOf (x : List Nat) : HIP_SIG.isPrefixOf (HIP_SIG ++ x) = true := by
  simp [HIP_SIG, List.isPrefixOf]

theorem parse_header_mk (uA fs nc w h uB cd : Nat) (rest : List Nat) :
    parse_header (mkHipHeader uA fs nc w h uB cd ++ rest) =
      if fs % 4294967296 ≠ 32 + rest.length then
        Except.error (PyError.valueError "Not valid HIP file! File size mismatch!")
      else if nc % 4294967296 ≠ 0 then
        if nc % 4294967296 < 256 then
          Except.error (PyError.valueError
            s!"Image contains {nc % 4294967296} colors which is less than 256!")
        else do
          let r ← unpackU32s 8 rest
          pure (nc % 4294967296, r.1.getD 0 0, r.1.getD 1 0, r.2)
      else
        Except.ok (0, w % 4294967296, h % 4294967296, rest) := by
  have hlen : (mkHipHeader uA fs nc w h uB cd ++ rest).length = 32 + rest.length := by
    simp [mkHipHeader, HIP_SIG, u32le]
    omega
  have hdrop : (mkHipHeader uA fs nc w h uB cd ++ rest).drop 4 =
      (([uA, fs, nc, w, h, uB, cd].map u32le).flatten ++ rest) := by
    simp [mkHipHeader, HIP_SIG]
  have hpre : HIP_SIG.isPrefixOf (mkHipHeader uA fs nc w h uB cd ++ rest) = true := by
    simp only [mkHipHeader, List.append_assoc]
    exact hipsig_isPrefixOf _
  have hunp : unpackU32s 7 ((([uA, fs, nc, w, h, uB, cd].map u32le).flatten ++ rest)) =
      Except.ok ([uA % 4294967296, fs % 4294967296, nc % 4294967296, w % 4294967296,
        h % 4294967296, uB % 4294967296, cd % 4294967296], rest) := by
    have := unpack_flatten [uA, fs, nc, w, h, uB, cd] rest
    simpa using this
  rw [parse_header]
  rw [hpre]
  simp only [Bool.true_eq_false, not_true_eq_false, if_false, hdrop, hunp, hlen]
  simp only [bind, Except.bind, List.getD, List.getElem?_cons_zero, List.getElem?_cons_succ,
    Option.getD_some]
  by_cases h1 : fs % 4294967296 = 32 + rest.length
  · simp only [h1, ne_eq, not_true_eq_false, if_false, ite_not, if_pos rfl]
    by_cases h2 : nc % 4294967296 = 0
    · simp [h2]
      rfl
    · simp [h2]
  · simp [h1]

/-- C2 (amended): header parsing rejects every input whose numColors field
is nonzero and LESS THAN 256 with the unsupported-color-count format error,
and it does so without reading any bytes beyond the 32-byte header: the
bytes after the header (rest) are universally quantified and never
inspected.  The original claim (every nonzero value other than 256 is
rejected) is false: values above 256 pass the check, see the
counterexample. -/
theorem c2_smallNumColorsRejected (uA w h uB cd nc : Nat) (rest : List Nat)
    (hnc0 : 0 < nc) (hnc : nc < 256) (hfs : 32 + rest.length < 4294967296) :
    parse_header (mkHipHeader uA (32 + rest.length) nc w h uB cd ++ rest) =
      Except.error (PyError.valueError
        s!"Image contains {nc} colors which is less than 256!") := by
  rw [parse_header_mk]
  rw [Nat.mod_eq_of_lt hfs, Nat.mod_eq_of_lt (lt_trans hnc (by norm_num))]
  simp [hnc, Nat.pos_iff_ne_zero.mp hnc0]

/-- C2 witness: numColors = 4 with arbitrary trailing bytes is rejected
with the exact message, per the claim scenario. -/
theorem c2_smallNumColorsRejected_witness :
    parse_header (mkHipHeader 0 36 4 0 0 0 0 ++ [9, 9, 9, 9]) =
      Except.error (PyError.valueError "Image contains 4 colors which is less than 256!") :=
  c2_smallNumColorsRejected 0 0 0 0 0 4 [9, 9, 9, 9] (by decide) (by decide) (by decide)

/-- C2 counterexample: numColors = 257 is nonzero and not equal to 256,
yet parse_header accepts the file (the source only rejects values below
HIP_MAX_COLORS), so the claim as stated is false. -/
theorem c2_smallNumColorsRejected_cex :
    parse_header (mkHipHeader 0 64 257 0 0 0 0 ++ List.replicate 32 0) =
      Except.ok (257, 0, 0, []) := by decide

/-- C9: an input whose fileSize header field differs from the actual byte
length of the input is rejected with the file-size-mismatch format error
during header parsing; the bytes after the header are universally
quantified and never inspected, so no palette or pixel data is decoded. -/
theorem c9_fileSizeMismatchRejected (uA fs nc w h uB cd : Nat) (rest : List Nat)
    (hfs : fs < 4294967296) (hne : fs ≠ 32 + rest.length) :
    parse_header (mkHipHeader uA fs nc w h uB cd ++ rest) =
      Except.error (PyError.valueError "Not valid HIP file! File size mismatch!") := by
  rw [parse_header_mk, Nat.mod_eq_of_lt hfs]
  simp [hne]

/-- C9 witness: a 36-byte file claiming fileSize 37 (off by one) is
rejected with the file-size-mismatch error. -/
theorem c9_fileSizeMismatchRejected_witness :
    parse_header (mkHipHeader 7 37 0 5 6 0 0 ++ [1, 2, 3, 4]) =
      Except.error (PyError.valueError "Not valid HIP file! File size mismatch!") :=
  c9_fileSizeMismatchRejected 7 37 0 5 6 0 0 [1, 2, 3, 4] (by decide) (by decide)

theorem build_header_P_eq : ∀ w h ids pds : Nat, w < 4294967296 → h < 4294967296 →
    64 + pds + ids < 4294967296 →
    build_header (w, h) "P" ids pds =
      Except.ok (HIP_SIG ++ u32le 0x125 ++ u32le (64 + pds + ids) ++ u32le 256 ++
        u32le 0 ++ u32le 0 ++ u32le 0 ++ u32le 32 ++
        u32le w ++ u32le h ++ u32le 0 ++ u32le 0 ++ u32le 0 ++ u32le 0 ++ u32le 0 ++ u32le 0) := by
  intro w h ids pds hw hh hfs
  rw [build_header]
  simp only [if_pos rfl, if_true]
  rw [pack_ok_of [0x125, 4 + 28 + 32 + pds + ids, (0, 256, 0, 0).2.1, (0, 256, 0, 0).2.2.1,
    (0, 256, 0, 0).2.2.2, ((0 : Nat), (256 : Nat), (0 : Nat), (0 : Nat)).1, (0, 256, 0, 0).2.1 / 8]
    (by intro v hv; simp at hv; rcases hv with rfl | rfl | rfl | rfl | rfl | rfl | rfl <;> omega)]
  simp only [bind, Except.bind]
  rw [pack_ok_of [w, h, 0, 0, 0, 0, 0, 0]
    (by intro v hv; simp at hv; rcases hv with rfl | rfl | rfl | rfl | rfl | rfl | rfl | rfl <;> omega)]
  simp [List.append_assoc]
  rfl

theorem build_header_RGBA_eq : ∀ w h ids : Nat, w < 4294967296 → h < 4294967296 →
    32 + ids < 4294967296 →
    build_header (w, h) "RGBA" ids 0 =
      Except.ok (HIP_SIG ++ u32le 0x125 ++ u32le (32 + ids) ++ u32le 0 ++
        u32le w ++ u32le h ++ u32le 0x110 ++ u32le 0) := by
  intro w h ids hw hh hfs
  rw [build_header]
  simp only [if_neg (by decide : ¬ ("RGBA" : String) = "P")]
  rw [pack_ok_of [0x125, 4 + 28 + 0 + 0 + ids, (0x110, 0, w, h).2.1, (0x110, 0, w, h).2.2.1,
    (0x110, 0, w, h).2.2.2, ((0x110 : Nat), (0 : Nat), w, h).1, (0x110, 0, w, h).2.1 / 8]
    (by intro v hv; simp at hv; rcases hv with rfl | rfl | rfl | rfl | rfl | rfl | rfl <;> omega)]
  simp [List.append_assoc]

/-- C8: build_header emits exactly the specified bytes: signature, then
unknownA = 0x125, fileSize = 4 (signature) + 28 (base header) +
(32 sub-header if indexed) + paletteDataSize + imageDataSize,
numColors (256 indexed / 0 direct), base width/height (0/0 indexed,
actual dims direct), unknownB (0 indexed / 0x110 direct),
colorDepth = numColors / 8 (32 / 0), and for indexed images the
sub-header of width, height and six zero u32 fields. -/
theorem c8_buildHeaderBytes :
    (∀ w h ids pds, w < 4294967296 → h < 4294967296 → 64 + pds + ids < 4294967296 →
      build_header (w, h) "P" ids pds =
        Except.ok (HIP_SIG ++ u32le 0x125 ++ u32le (64 + pds + ids) ++ u32le 256 ++
          u32le 0 ++ u32le 0 ++ u32le 0 ++ u32le 32 ++
          u32le w ++ u32le h ++ u32le 0 ++ u32le 0 ++ u32le 0 ++ u32le 0 ++ u32le 0 ++ u32le 0)) ∧
    (∀ w h ids, w < 4294967296 → h < 4294967296 → 32 + ids < 4294967296 →
      build_header (w, h) "RGBA" ids 0 =
        Except.ok (HIP_SIG ++ u32le 0x125 ++ u32le (32 + ids) ++ u32le 0 ++
          u32le w ++ u32le h ++ u32le 0x110 ++ u32le 0)) :=
  ⟨build_header_P_eq, build_header_RGBA_eq⟩

/-- C8 witness: both header shapes at concrete inputs. -/
theorem c8_buildHeaderBytes_witness :
    build_header (2, 3) "P" 10 1024 =
      Except.ok (HIP_SIG ++ u32le 0x125 ++ u32le (64 + 1024 + 10) ++ u32le 256 ++
        u32le 0 ++ u32le 0 ++ u32le 0 ++ u32le 32 ++
        u32le 2 ++ u32le 3 ++ u32le 0 ++ u32le 0 ++ u32le 0 ++ u32le 0 ++ u32le 0 ++ u32le 0) ∧
    build_header (2, 3) "RGBA" 10 0 =
      Except.ok (HIP_SIG ++ u32le 0x125 ++ u32le (32 + 10) ++ u32le 0 ++
        u32le 2 ++ u32le 3 ++ u32le 0x110 ++ u32le 0) :=
  ⟨c8_buildHeaderBytes.1 2 3 10 1024 (by decide) (by decide) (by decide),
   c8_buildHeaderBytes.2 2 3 10 (by decide) (by decide) (by decide)⟩

theorem ppAux_build (n : Nat) : ∀ x : List Nat, x.length = 4 * n →
    ∃ pd ad, parsePaletteAux x = Except.ok (pd, ad) ∧
      pd.length = 3 * n ∧ ad.length = n ∧ buildPaletteAux pd ad = Except.ok x := by
  induction n with
  | zero =>
      intro x hx
      have : x = [] := List.eq_nil_of_length_eq_zero (by omega)
      subst this
      exact ⟨[], [], rfl, rfl, rfl, rfl⟩
  | succ n ih =>
      intro x hx
      match x with
      | b :: g :: r :: a :: rest =>
          have hr : rest.length = 4 * n := by simp at hx; omega
          obtain ⟨pd, ad, h1, h2, h3, h4⟩ := ih rest hr
          refine ⟨b :: g :: r :: pd, a :: ad, ?_, by simp [h2]; omega, by simp [h3], ?_⟩
          · rw [parsePaletteAux, h1]; rfl
          · rw [buildPaletteAux, h4]; rfl

theorem parse_of_build : ∀ al pd out : List Nat,
    buildPaletteAux pd al = Except.ok out → parsePaletteAux out = Except.ok (pd, al) := by
  intro al
  induction al with
  | nil =>
      intro pd out h
      match pd with
      | [] =>
          rw [buildPaletteAux] at h
          cases h
          rfl
      | [x] => simp [buildPaletteAux] at h
      | [x, y] => simp [buildPaletteAux] at h
      | x :: y :: z :: pd => simp [buildPaletteAux] at h
  | cons a ad ih =>
      intro pd out h
      match pd with
      | [] => simp [buildPaletteAux] at h
      | [x] => simp [buildPaletteAux] at h
      | [x, y] => simp [buildPaletteAux] at h
      | x :: y :: z :: pd =>
          rw [buildPaletteAux] at h
          cases hb : buildPaletteAux pd ad with
          | error e => rw [hb] at h; cases h
          | ok o =>
              rw [hb] at h
              cases h
              rw [parsePaletteAux, ih pd o hb]
              rfl

theorem build_length : ∀ al pd out : List Nat,
    buildPaletteAux pd al = Except.ok out → out.length = pd.length + al.length := by
  intro al
  induction al with
  | nil =>
      intro pd out h
      match pd with
      | [] => rw [buildPaletteAux] at h; cases h; rfl
      | [x] => simp [buildPaletteAux] at h
      | [x, y] => simp [buildPaletteAux] at h
      | x :: y :: z :: pd => simp [buildPaletteAux] at h
  | cons a ad ih =>
      intro pd out h
      match pd with
      | [] => simp [buildPaletteAux] at h
      | [x] => simp [buildPaletteAux] at h
      | [x, y] => simp [buildPaletteAux] at h
      | x :: y :: z :: pd =>
          rw [buildPaletteAux] at h
          cases hb : buildPaletteAux pd ad with
          | error e => rw [hb] at h; cases h
          | ok o =>
              rw [hb] at h
              cases h
              have := ih pd o hb
              simp [this]
              omega

/-- C4: palette transposition is an involution: parsing a 1024-byte
on-disk palette blob to the logical tables and re-encoding those tables
yields exactly the original bytes. -/
theorem c4_paletteInvolution (x : List Nat) (hx : x.length = 1024) :
    paletteRoundTrip x = Except.ok x := by
  obtain ⟨pd, ad, h1, h2, h3, h4⟩ := ppAux_build 256 x (by omega)
  rw [paletteRoundTrip, parse_palette]
  have htake : x.take (256 * 4) = x := List.take_of_length_le (by omega)
  rw [htake, h1]
  simp only [bind, Except.bind]
  rw [if_neg (by omega)]
  simp only [pure, Except.pure]
  rw [build_palette]
  simp only [List.reverse_reverse]
  rw [if_neg (by omega), h4]
  simp only [bind, Except.bind]
  rw [if_neg (by omega)]
  rfl

/-- C4 witness: the involution at a concrete 1024-byte blob. -/
theorem c4_paletteInvolution_witness :
    paletteRoundTrip (List.replicate 1024 5) = Except.ok (List.replicate 1024 5) :=
  c4_paletteInvolution (List.replicate 1024 5) (by rw [List.length_replicate])

/-- C7 (amended): saving a container with exactly one of the palette and
alpha buffers nonempty raises TypeError ("Unsupported image type!"), not
ValueError: neither save branch matches and the final else raises
TypeError in the source. -/
theorem c7_inconsistentContainer (image_size : Nat × Nat) (image palette alpha : List Nat)
    (h : (palette ≠ [] ∧ alpha = []) ∨ (palette = [] ∧ alpha ≠ [])) :
    save_hip image_size image palette alpha =
      Except.error (PyError.typeError "Unsupported image type!") := by
  rw [save_hip]
  rcases h with ⟨h1, h2⟩ | ⟨h1, h2⟩
  · rw [if_neg (by simp [h2]), if_neg (by simp [h1])]
  · rw [if_neg (by simp [h1]), if_neg (by simp [h2])]

/-- C7 witness: empty palette with nonempty alpha raises TypeError. -/
theorem c7_inconsistentContainer_witness :
    save_hip (1, 1) [0] [] [5] = Except.error (PyError.typeError "Unsupported image type!") :=
  c7_inconsistentContainer (1, 1) [0] [] [5] (Or.inr ⟨rfl, by decide⟩)

/-- C7 counterexample: a nonempty palette with empty alpha raises
TypeError, which is not a ValueError, so the claim as stated (ValueError)
is false at this input. -/
theorem c7_inconsistentContainer_cex :
    save_hip (1, 1) [0] [1, 2, 3] [] = Except.error (PyError.typeError "Unsupported image type!") ∧
      (PyError.typeError "Unsupported image type!").isValueError = false :=
  ⟨rfl, rfl⟩

theorem flatten_replicate_length {α : Type} (n : Nat) (l : List α) :
    ((List.replicate n l).flatten).length = n * l.length := by
  induction n with
  | zero => simp
  | succ n ih => simp [List.replicate_succ, ih, Nat.succ_mul, Nat.add_comm]

theorem list2induction {α : Type} {motive : List α → Prop} (nil : motive [])
    (single : ∀ a, motive [a])
    (cons2 : ∀ a b l, motive l → motive (a :: b :: l)) : ∀ d, motive d
  | [] => nil
  | [a] => single a
  | a :: b :: l => cons2 a b l (list2induction nil single cons2 l)

theorem list5induction {α : Type} {motive : List α → Prop} (nil : motive [])
    (one : ∀ a, motive [a]) (two : ∀ a b, motive [a, b])
    (three : ∀ a b c, motive [a, b, c]) (four : ∀ a b c d, motive [a, b, c, d])
    (cons5 : ∀ a b c d e l, motive l → motive (a :: b :: c :: d :: e :: l)) : ∀ d, motive d
  | [] => nil
  | [a] => one a
  | [a, b] => two a b
  | [a, b, c] => three a b c
  | [a, b, c, d] => four a b c d
  | a :: b :: c :: d :: e :: l => cons5 a b c d e l (list5induction nil one two three four cons5 l)

theorem ppidAux_ok_of_even : ∀ d : List Nat, (∀ x ∈ d, x < 256) → 2 ∣ d.length →
    ∃ l, ppidAux 256 d = Except.ok l ∧ l.length = sumCounts2 d := by
  intro d
  induction d using list2induction with
  | nil => intro _ _; exact ⟨[], rfl, rfl⟩
  | single a => intro _ he; exfalso; simp at he
  | cons2 color npx rest ih =>
      intro hb he
      have hc : color < 256 := hb color (by simp)
      have hbr : ∀ x ∈ rest, x < 256 := fun x hx => hb x (by simp [hx])
      have her : 2 ∣ rest.length := by
        simp only [List.length_cons] at he ⊢
        omega
      obtain ⟨l, hl, hlen⟩ := ih hbr her
      simp only [ppidAux]
      split
      next hcond => exact absurd hcond (by omega)
      next hcond =>
        rw [hl]
        exact ⟨_, rfl, by simp [sumCounts2, hlen]⟩

theorem ppidAux_assert_of_odd : ∀ d : List Nat, (∀ x ∈ d, x < 256) → ¬ 2 ∣ d.length →
    ppidAux 256 d = Except.error PyError.assertionError := by
  intro d
  induction d using list2induction with
  | nil => intro _ ho; exact absurd ⟨0, rfl⟩ ho
  | single a => intro _ _; rfl
  | cons2 color npx rest ih =>
      intro hb ho
      have hc : color < 256 := hb color (by simp)
      have hbr : ∀ x ∈ rest, x < 256 := fun x hx => hb x (by simp [hx])
      have hor : ¬ 2 ∣ rest.length := by
        simp only [List.length_cons] at ho ⊢
        omega
      simp only [ppidAux]
      split
      next hcond => exact absurd hcond (by omega)
      next hcond =>
        rw [ih hbr hor]
        rfl

theorem pridAux_ok_of_dvd : ∀ d : List Nat, 5 ∣ d.length →
    ∃ l, pridAux d = Except.ok l ∧ l.length = 4 * sumCounts5 d := by
  intro d
  induction d using list5induction with
  | nil => intro _; exact ⟨[], rfl, rfl⟩
  | one a => intro he; exfalso; simp at he
  | two a b => intro he; exfalso; simp at he; omega
  | three a b c => intro he; exfalso; simp at he; omega
  | four a b c d => intro he; exfalso; simp at he; omega
  | cons5 b g r a npx rest ih =>
      intro he
      have her : 5 ∣ rest.length := by
        simp only [List.length_cons] at he ⊢
        omega
      obtain ⟨l, hl, hlen⟩ := ih her
      rw [pridAux, hl]
      refine ⟨_, rfl, ?_⟩
      rw [sumCounts5]
      simp [hlen, flatten_replicate_length]
      omega

theorem pridAux_assert_of_not_dvd : ∀ d : List Nat, ¬ 5 ∣ d.length →
    pridAux d = Except.error PyError.assertionError := by
  intro d
  induction d using list5induction with
  | nil => intro ho; exact absurd ⟨0, rfl⟩ ho
  | one a => intro _; rfl
  | two a b => intro _; rfl
  | three a b c => intro _; rfl
  | four a b c d => intro _; rfl
  | cons5 b g r a npx rest ih =>
      intro ho
      have hor : ¬ 5 ∣ rest.length := by
        simp only [List.length_cons] at ho ⊢
        omega
      rw [pridAux, ih hor]
      rfl

/-- C10 (amended): over byte inputs, the decoders' internal 2-byte
(respectively 5-byte) complete-chunk assertions hold exactly when the
stream length is a multiple of the chunk size; a stream with a truncated
final chunk makes the assert fail (AssertionError), rather than returning
a buffer or raising the documented length-mismatch ValueError. -/
theorem c10_chunkAsserts :
    (∀ w h d, (∀ x ∈ d, x < 256) →
      ((2 ∣ d.length → parse_palette_image_data w h 256 d ≠ Except.error PyError.assertionError) ∧
       (¬ 2 ∣ d.length → parse_palette_image_data w h 256 d = Except.error PyError.assertionError))) ∧
    (∀ w h d,
      ((5 ∣ d.length → parse_raw_image_data w h d ≠ Except.error PyError.assertionError) ∧
       (¬ 5 ∣ d.length → parse_raw_image_data w h d = Except.error PyError.assertionError))) := by
  constructor
  · intro w h d hb
    constructor
    · intro he
      obtain ⟨l, hl, _⟩ := ppidAux_ok_of_even d hb he
      rw [parse_palette_image_data]
      simp only [bind, Except.bind, hl]
      split <;> simp [pure, Except.pure]
    · intro ho
      rw [parse_palette_image_data]
      simp only [bind, Except.bind, ppidAux_assert_of_odd d hb ho]
  · intro w h d
    constructor
    · intro he
      obtain ⟨l, hl, _⟩ := pridAux_ok_of_dvd d he
      rw [parse_raw_image_data]
      simp only [bind, Except.bind, hl]
      split <;> simp [pure, Except.pure]
    · intro ho
      rw [parse_raw_image_data]
      simp only [bind, Except.bind, pridAux_assert_of_not_dvd d ho]

/-- C10 witness: at concrete inputs, a complete-chunk stream does not
raise AssertionError and a truncated one does, for both decoders. -/
theorem c10_chunkAsserts_witness :
    (parse_palette_image_data 1 1 256 [255, 1] ≠ Except.error PyError.assertionError) ∧
    (parse_palette_image_data 0 0 256 [255] = Except.error PyError.assertionError) ∧
    (parse_raw_image_data 1 1 [1, 2, 3, 4, 1] ≠ Except.error PyError.assertionError) ∧
    (parse_raw_image_data 0 0 [1, 2] = Except.error PyError.assertionError) :=
  ⟨(c10_chunkAsserts.1 1 1 [255, 1] (by decide)).1 (by decide),
   (c10_chunkAsserts.1 0 0 [255] (by decide)).2 (by decide),
   (c10_chunkAsserts.2 1 1 [1, 2, 3, 4, 1]).1 (by decide),
   (c10_chunkAsserts.2 0 0 [1, 2]).2 (by decide)⟩

/-- C10 counterexample: on the 1-byte stream [0] both decoders raise
AssertionError, not the documented length-mismatch error and not a pixel
buffer, so the claim as stated (assertions hold for all inputs, including
truncated final chunks) is false. -/
theorem c10_chunkAsserts_cex :
    parse_palette_image_data 0 0 256 [0] = Except.error PyError.assertionError ∧
    parse_raw_image_data 0 0 [0] = Except.error PyError.assertionError :=
  ⟨rfl, rfl⟩

/-- C3: for every geometry and complete-chunk byte stream, each decoder
raises the length-mismatch format error whenever the stream's summed run
counts differ from width*height. -/
theorem c3_pixelCountInvariant :
    (∀ w h d, (∀ x ∈ d, x < 256) → 2 ∣ d.length → sumCounts2 d ≠ w * h →
       parse_palette_image_data w h 256 d =
         Except.error (PyError.valueError "Image data length mismatch!")) ∧
    (∀ w h d, 5 ∣ d.length → sumCounts5 d ≠ w * h →
       parse_raw_image_data w h d =
         Except.error (PyError.valueError "Image data length mismatch!")) := by
  constructor
  · intro w h d hb he hs
    obtain ⟨l, hl, hlen⟩ := ppidAux_ok_of_even d hb he
    rw [parse_palette_image_data]
    simp only [bind, Except.bind, hl]
    rw [if_pos (by omega)]
  · intro w h d he hs
    obtain ⟨l, hl, hlen⟩ := pridAux_ok_of_dvd d he
    rw [parse_raw_image_data]
    simp only [bind, Except.bind, hl]
    rw [if_pos (by omega)]

/-- C3 witness: a 2-chunk indexed stream summing to 3 pixels against a
2x2 geometry, and a 1-chunk direct stream summing to 2 pixels against a
1x1 geometry, both raise the length-mismatch error. -/
theorem c3_pixelCountInvariant_witness :
    parse_palette_image_data 2 2 256 [255, 2, 254, 1] =
      Except.error (PyError.valueError "Image data length mismatch!") ∧
    parse_raw_image_data 1 1 [1, 2, 3, 4, 2] =
      Except.error (PyError.valueError "Image data length mismatch!") :=
  ⟨c3_pixelCountInvariant.1 2 2 [255, 2, 254, 1] (by decide) (by decide) (by decide),
   c3_pixelCountInvariant.2 1 1 [1, 2, 3, 4, 2] (by decide) (by decide)⟩

/-- C6: with numColors = 256, decoding a 2-byte chunk (storedIndex,
count) emits count consecutive pixels of logical index 255 - storedIndex;
and the concrete 2x2 scenario: encoding logical indices [0,0,1,1] yields
exactly the chunks (255,2)(254,2), and decoding those chunks reproduces
[0,0,1,1]. -/
theorem c6_indexedChunkSemantics :
    (∀ si c rest, si < 256 →
       ppidAux 256 (si :: c :: rest) =
         (fun d => List.replicate c (255 - si) ++ d) <$> ppidAux 256 rest) ∧
    build_palette_image [0, 0, 1, 1] = [255, 2, 254, 2] ∧
    parse_palette_image_data 2 2 256 [255, 2, 254, 2] = Except.ok [0, 0, 1, 1] := by
  refine ⟨?_, by decide, by decide⟩
  intro si c rest hsi
  simp only [ppidAux]
  split
  next hcond => exact absurd hcond (by omega)
  next hcond =>
    have ht : (((256 : Nat) : Int) - (si : Int) - 1).toNat = 255 - si := by omega
    rw [ht]

/-- C6 witness: the chunk-decode equation at the concrete chunk (254, 2)
followed by the chunk (255, 2). -/
theorem c6_indexedChunkSemantics_witness :
    ppidAux 256 (254 :: 2 :: [255, 2]) =
      (fun d => List.replicate 2 (255 - 254) ++ d) <$> ppidAux 256 [255, 2] :=
  c6_indexedChunkSemantics.1 254 2 [255, 2] (by decide)

theorem toNat_255_sub (p : Nat) (hp : p < 256) :
    ((255 : Int) - (p : Int)).toNat = 255 - p := by omega

theorem bpi_step_zero (ci : Int) (p : Nat) (acc : List Nat) (ps : List Nat) :
    bpiAux ci 0 acc (p :: ps) = bpiAux (p : Int) 1 acc ps := by
  rw [bpiAux, if_neg (by simp)]

theorem bpi_step_same (p cnt : Nat) (acc ps : List Nat) (h : cnt < 255) :
    bpiAux (p : Int) cnt acc (p :: ps) = bpiAux (p : Int) (cnt + 1) acc ps := by
  rw [bpiAux, if_neg (by simp; omega)]

theorem bpi_step_flush255 (ci : Int) (p cnt : Nat) (acc ps : List Nat) (h : 255 ≤ cnt) :
    bpiAux ci cnt acc (p :: ps) =
      bpiAux (p : Int) 1 (acc ++ [(255 - ci).toNat, cnt]) ps := by
  rw [bpiAux, if_pos (Or.inr h)]

theorem bpi_step_change (ci : Int) (p cnt : Nat) (acc ps : List Nat)
    (hne : (p : Int) ≠ ci) (hc : 0 < cnt) :
    bpiAux ci cnt acc (p :: ps) =
      bpiAux (p : Int) 1 (acc ++ [(255 - ci).toNat, cnt]) ps := by
  rw [bpiAux, if_pos (Or.inl ⟨hne, hc⟩)]

theorem bpi_finish (ci : Int) (cnt : Nat) (acc : List Nat) (h : cnt ≠ 0) :
    bpiAux ci cnt acc [] = acc ++ [(255 - ci).toNat, cnt] := by
  rw [bpiAux, if_pos h]

theorem bpi_run : ∀ (j p cnt : Nat) (acc rest : List Nat), 0 < cnt → cnt + j ≤ 255 →
    bpiAux (p : Int) cnt acc (List.replicate j p ++ rest) =
      bpiAux (p : Int) (cnt + j) acc rest := by
  intro j
  induction j with
  | zero => intro p cnt acc rest _ _; simp
  | succ j ih =>
      intro p cnt acc rest hc hle
      rw [List.replicate_succ, List.cons_append,
        bpi_step_same p cnt acc _ (by omega),
        ih p (cnt + 1) acc rest (by omega) (by omega)]
      have : cnt + 1 + j = cnt + (j + 1) := by omega
      rw [this]

theorem bpi_run_full (p : Nat) (hp : p < 256) : ∀ (n : Nat) (acc rest : List Nat),
    bpiAux (p : Int) 1 acc (List.replicate n p ++ rest) =
      bpiAux (p : Int) (n % 255 + 1)
        (acc ++ (List.replicate (n / 255) [255 - p, 255]).flatten) rest := by
  intro n
  induction n using Nat.strong_induction_on with
  | _ n ih =>
      intro acc rest
      by_cases hn : n ≤ 254
      · rw [bpi_run n p 1 acc rest (by omega) (by omega)]
        have h1 : n / 255 = 0 := by omega
        have h2 : n % 255 = n := by omega
        have h3 : 1 + n = n + 1 := by omega
        rw [h1, h2, h3]
        simp
      · have key : ∀ k : Nat, List.replicate (255 + k) p =
            List.replicate 254 p ++ p :: List.replicate k p := by
          intro k
          rw [show 255 + k = 254 + (1 + k) by omega, List.replicate_add, List.replicate_add]
          rfl
        have hsplit : List.replicate n p = List.replicate 254 p ++ p :: List.replicate (n - 255) p := by
          have hk := key (n - 255)
          rw [show (255 : Nat) + (n - 255) = n from by omega] at hk
          exact hk
        rw [hsplit, List.append_assoc, List.cons_append,
          bpi_run 254 p 1 acc _ (by omega) (by omega)]
        rw [show (1 : Nat) + 254 = 255 from rfl]
        rw [bpi_step_flush255 (p : Int) p 255 acc _ (by omega)]
        rw [toNat_255_sub p hp]
        rw [ih (n - 255) (by omega)]
        have hm : (n - 255) % 255 = n % 255 := by omega
        have hd : n / 255 = (n - 255) / 255 + 1 := by omega
        rw [hm, hd, List.replicate_succ, List.flatten_cons]
        simp [List.append_assoc]

theorem bpi_runs : ∀ (rs : List (Nat × Nat)) (p n : Nat) (acc : List Nat),
    0 < n → p < 256 → (∀ r ∈ rs, 0 < r.2 ∧ r.1 < 256) →
    List.Chain' (fun a b => a.1 ≠ b.1) ((p, n) :: rs) →
    bpiAux (p : Int) 1 acc (List.replicate (n - 1) p ++ runsJoin rs) =
      acc ++ chunkBytesFor p n ++ bytesOfRuns rs := by
  intro rs
  induction rs with
  | nil =>
      intro p n acc hn hp _ _
      rw [runsJoin]
      simp only [List.map_nil, List.flatten_nil]
      rw [bpi_run_full p hp (n - 1) acc []]
      rw [bpi_finish _ _ _ (by omega)]
      rw [toNat_255_sub p hp]
      simp [chunkBytesFor, bytesOfRuns, List.append_assoc]
  | cons qm rs ih =>
      intro p n acc hn hp hmem hchain
      obtain ⟨q, m⟩ := qm
      have hqm : 0 < m ∧ q < 256 := hmem (q, m) (by simp)
      have hne : p ≠ q := (List.chain'_cons.mp hchain).1
      have hchain2 : List.Chain' (fun a b => a.1 ≠ b.1) ((q, m) :: rs) :=
        (List.chain'_cons.mp hchain).2
      have hjoin : runsJoin ((q, m) :: rs) = q :: (List.replicate (m - 1) q ++ runsJoin rs) := by
        rw [runsJoin, List.map_cons, List.flatten_cons]
        rw [show List.replicate m q = q :: List.replicate (m - 1) q by
          rw [show m = (m - 1) + 1 by omega, List.replicate_succ]
          simp]
        rfl
      rw [hjoin, bpi_run_full p hp (n - 1) acc _]
      have hneInt : (q : Int) ≠ (p : Int) := by exact_mod_cast Ne.symm hne
      rw [bpi_step_change ((p : Nat) : Int) q ((n - 1) % 255 + 1)
        (acc ++ (List.replicate ((n - 1) / 255) [255 - p, 255]).flatten)
        (List.replicate (m - 1) q ++ runsJoin rs) hneInt (by omega)]
      rw [toNat_255_sub p hp]
      rw [ih q m _ hqm.1 hqm.2 (fun r hr => hmem r (by simp [hr])) hchain2]
      simp [bytesOfRuns, chunkBytesFor, List.append_assoc]

theorem bpi_runs_top (rs : List (Nat × Nat)) (hmem : ∀ r ∈ rs, 0 < r.2 ∧ r.1 < 256)
    (hchain : List.Chain' (fun a b => a.1 ≠ b.1) rs) :
    build_palette_image (runsJoin rs) = bytesOfRuns rs := by
  cases rs with
  | nil => rfl
  | cons pn rs =>
      obtain ⟨p, n⟩ := pn
      have hpn : 0 < n ∧ p < 256 := hmem (p, n) (by simp)
      have hjoin : runsJoin ((p, n) :: rs) = p :: (List.replicate (n - 1) p ++ runsJoin rs) := by
        rw [runsJoin, List.map_cons, List.flatten_cons]
        rw [show List.replicate n p = p :: List.replicate (n - 1) p by
          rw [show n = (n - 1) + 1 by omega, List.replicate_succ]
          simp]
        rfl
      rw [hjoin, build_palette_image, bpi_step_zero]
      rw [bpi_runs rs p n [] hpn.1 hpn.2 (fun r hr => hmem r (by simp [hr])) hchain]
      simp [bytesOfRuns]

theorem chunkCounts_append_pair : ∀ acc : List Nat, 2 ∣ acc.length → ∀ i c,
    chunkCounts (acc ++ [i, c]) = chunkCounts acc ++ [c] := by
  intro acc
  induction acc using list2induction with
  | nil => intro _ i c; rfl
  | single a => intro h; exfalso; simp at h
  | cons2 a b l ih =>
      intro h i c
      have hl : 2 ∣ l.length := by
        simp only [List.length_cons] at h
        omega
      rw [List.cons_append, List.cons_append, chunkCounts, ih hl, chunkCounts]
      rfl

theorem bpi_counts_aux : ∀ (l : List Nat) (ci : Int) (cnt : Nat) (acc : List Nat),
    cnt ≤ 255 → 2 ∣ acc.length → (∀ c ∈ chunkCounts acc, 1 ≤ c ∧ c ≤ 255) →
    ∀ c ∈ chunkCounts (bpiAux ci cnt acc l), 1 ≤ c ∧ c ≤ 255 := by
  intro l
  induction l with
  | nil =>
      intro ci cnt acc hcnt hev hacc c hc
      rw [bpiAux] at hc
      by_cases hz : cnt ≠ 0
      · rw [if_pos hz, chunkCounts_append_pair acc hev] at hc
        rcases List.mem_append.mp hc with hm | hm
        · exact hacc c hm
        · simp at hm
          omega
      · rw [if_neg hz] at hc
        exact hacc c hc
  | cons p ps ih =>
      intro ci cnt acc hcnt hev hacc c hc
      rw [bpiAux] at hc
      by_cases hcond : (((p : Nat) : Int) ≠ ci ∧ 0 < cnt) ∨ 255 ≤ cnt
      · rw [if_pos hcond] at hc
        refine ih (p : Int) 1 _ (by omega) (by simp; omega) ?_ c hc
        intro x hx
        rw [chunkCounts_append_pair acc hev] at hx
        rcases List.mem_append.mp hx with hm | hm
        · exact hacc x hm
        · simp at hm
          rcases hcond with ⟨_, hpos⟩ | h255 <;> omega
      · rw [if_neg hcond] at hc
        push_neg at hcond
        exact ih (p : Int) (cnt + 1) acc (by omega) hev hacc c hc

theorem bpi_counts (l : List Nat) : ∀ c ∈ chunkCounts (build_palette_image l), 1 ≤ c ∧ c ≤ 255 :=
  bpi_counts_aux l (-1) 0 [] (by omega) ⟨0, rfl⟩ (by intro c hc; cases hc)

theorem groupRuns_join {α : Type} [DecidableEq α] : ∀ l : List α, runsJoin (groupRuns l) = l := by
  intro l
  induction l with
  | nil => rfl
  | cons p ps ih =>
      rw [groupRuns]
      cases hg : groupRuns ps with
      | nil =>
          rw [hg] at ih
          have hps : ps = [] := by simpa [runsJoin] using ih.symm
          simp [runsJoin, hps]
      | cons qk rs =>
          obtain ⟨q, k⟩ := qk
          rw [hg] at ih
          dsimp only
          simp only [runsJoin, List.map_cons, List.flatten_cons] at ih
          by_cases hpq : p = q
          · rw [if_pos hpq]
            subst hpq
            simp only [runsJoin, List.map_cons, List.flatten_cons]
            rw [List.replicate_succ, List.cons_append, ih]
          · rw [if_neg hpq]
            simp only [runsJoin, List.map_cons, List.flatten_cons]
            rw [List.replicate_one, List.singleton_append, ih]

theorem groupRuns_pos {α : Type} [DecidableEq α] : ∀ (l : List α) (r : α × Nat),
    r ∈ groupRuns l → 0 < r.2 := by
  intro l
  induction l with
  | nil => intro r hr; cases hr
  | cons p ps ih =>
      intro r hr
      rw [groupRuns] at hr
      cases hg : groupRuns ps with
      | nil =>
          rw [hg] at hr
          simp at hr
          simp [hr]
      | cons qk rs =>
          obtain ⟨q, k⟩ := qk
          rw [hg] at hr
          dsimp only at hr
          by_cases hpq : p = q
          · rw [if_pos hpq] at hr
            rcases List.mem_cons.mp hr with rfl | hm
            · simp
            · exact ih r (hg ▸ List.mem_cons_of_mem _ hm)
          · rw [if_neg hpq] at hr
            rcases List.mem_cons.mp hr with rfl | hm
            · simp
            · exact ih r (hg ▸ hm)

theorem groupRuns_mem {α : Type} [DecidableEq α] : ∀ (l : List α) (r : α × Nat),
    r ∈ groupRuns l → r.1 ∈ l := by
  intro l
  induction l with
  | nil => intro r hr; cases hr
  | cons p ps ih =>
      intro r hr
      rw [groupRuns] at hr
      cases hg : groupRuns ps with
      | nil =>
          rw [hg] at hr
          simp at hr
          simp [hr]
      | cons qk rs =>
          obtain ⟨q, k⟩ := qk
          rw [hg] at hr
          dsimp only at hr
          by_cases hpq : p = q
          · rw [if_pos hpq] at hr
            rcases List.mem_cons.mp hr with rfl | hm
            · simp [hpq]
            · exact List.mem_cons_of_mem _ (ih r (hg ▸ List.mem_cons_of_mem _ hm))
          · rw [if_neg hpq] at hr
            rcases List.mem_cons.mp hr with rfl | hm
            · simp
            · exact List.mem_cons_of_mem _ (ih r (hg ▸ hm))

theorem groupRuns_chain {α : Type} [DecidableEq α] : ∀ l : List α,
    List.Chain' (fun a b => a.1 ≠ b.1) (groupRuns l) := by
  intro l
  induction l with
  | nil => exact List.chain'_nil
  | cons p ps ih =>
      rw [groupRuns]
      cases hg : groupRuns ps with
      | nil => simp
      | cons qk rs =>
          obtain ⟨q, k⟩ := qk
          rw [hg] at ih
          dsimp only
          by_cases hpq : p = q
          · rw [if_pos hpq]
            cases rs with
            | nil => simp
            | cons r rs2 =>
                rw [List.chain'_cons] at ih ⊢
                exact ⟨ih.1, ih.2⟩
          · rw [if_neg hpq]
            rw [List.chain'_cons]
            exact ⟨hpq, ih⟩

/-- C5: the indexed RLE encoder emits each maximal run of n identical
pixels of index p as chunkBytesFor p n, that is (n-1)/255 + 1 =
ceil(n/255) chunks all with stored index 255 - p; every emitted chunk
count lies in 1..255 for every input buffer; and a run of exactly 256
identical pixels becomes two chunks of counts 255 and 1. -/
theorem c5_encoderRunSplit :
    (∀ rs : List (Nat × Nat), (∀ r ∈ rs, 0 < r.2 ∧ r.1 < 256) →
       List.Chain' (fun a b => a.1 ≠ b.1) rs →
       build_palette_image (runsJoin rs) = bytesOfRuns rs) ∧
    (∀ l : List Nat, ∀ c ∈ chunkCounts (build_palette_image l), 1 ≤ c ∧ c ≤ 255) ∧
    (∀ p : Nat, p < 256 →
       build_palette_image (List.replicate 256 p) = [255 - p, 255, 255 - p, 1]) := by
  refine ⟨bpi_runs_top, bpi_counts, ?_⟩
  intro p hp
  have h := bpi_runs_top [(p, 256)] (by simp; omega) (by simp)
  rw [runsJoin] at h
  simp only [List.map_cons, List.map_nil, List.flatten_cons, List.flatten_nil,
    List.append_nil] at h
  rw [h]
  rw [bytesOfRuns]
  simp [chunkBytesFor]

/-- C5 witness: the run decomposition [(7, 256), (3, 2)] of a concrete
buffer encodes to the predicted chunk bytes, and the 256-run split at
pixel 7 gives chunks (248, 255) and (248, 1). -/
theorem c5_encoderRunSplit_witness :
    build_palette_image (runsJoin [(7, 256), (3, 2)]) = bytesOfRuns [(7, 256), (3, 2)] ∧
    (∀ c ∈ chunkCounts (build_palette_image [9, 9, 2]), 1 ≤ c ∧ c ≤ 255) ∧
    build_palette_image (List.replicate 256 7) = [255 - 7, 255, 255 - 7, 1] :=
  ⟨c5_encoderRunSplit.1 [(7, 256), (3, 2)] (by decide)
     (List.chain'_cons.mpr ⟨by decide, List.chain'_singleton _⟩),
   c5_encoderRunSplit.2.1 [9, 9, 2],
   c5_encoderRunSplit.2.2 7 (by decide)⟩

theorem ppid_cons_eq (si c : Nat) (rest : List Nat) (hsi : si < 256) :
    ppidAux 256 (si :: c :: rest) =
      (fun d => List.replicate c (255 - si) ++ d) <$> ppidAux 256 rest := by
  simp only [ppidAux]
  split
  next hcond => exact absurd hcond (by omega)
  next hcond =>
    have ht : (((256 : Nat) : Int) - (si : Int) - 1).toNat = 255 - si := by omega
    rw [ht]

theorem ppid_chunkBytesFor : ∀ (k s r : Nat) (rest : List Nat), s < 256 →
    ppidAux 256 ((List.replicate k [s, 255]).flatten ++ ([s, r + 1] ++ rest)) =
      (fun d => List.replicate (255 * k + (r + 1)) (255 - s) ++ d) <$> ppidAux 256 rest := by
  intro k
  induction k with
  | zero =>
      intro s r rest hs
      simp only [List.replicate_zero, List.flatten_nil, List.nil_append]
      rw [List.cons_append, List.cons_append, List.nil_append]
      rw [ppid_cons_eq s (r + 1) rest hs]
      norm_num
  | succ k ih =>
      intro s r rest hs
      rw [List.replicate_succ, List.flatten_cons]
      rw [List.append_assoc, List.cons_append, List.cons_append, List.nil_append]
      rw [ppid_cons_eq s 255 _ hs]
      rw [ih s r rest hs]
      cases ppidAux 256 rest with
      | error e => rfl
      | ok l =>
          show Except.ok (List.replicate 255 (255 - s) ++
              (List.replicate (255 * k + (r + 1)) (255 - s) ++ l)) =
            Except.ok (List.replicate (255 * (k + 1) + (r + 1)) (255 - s) ++ l)
          rw [← List.append_assoc, ← List.replicate_add]
          have harith : 255 + (255 * k + (r + 1)) = 255 * (k + 1) + (r + 1) := by ring
          rw [harith]

theorem ppid_run (p n : Nat) (rest : List Nat) (hp : p < 256) (hn : 0 < n) :
    ppidAux 256 (chunkBytesFor p n ++ rest) =
      (fun d => List.replicate n p ++ d) <$> ppidAux 256 rest := by
  rw [chunkBytesFor, List.append_assoc]
  have hs : 255 - p < 256 := by omega
  rw [show [255 - p, (n - 1) % 255 + 1] ++ rest = ([255 - p, (n - 1) % 255 + 1] ++ rest) from rfl]
  rw [ppid_chunkBytesFor ((n - 1) / 255) (255 - p) ((n - 1) % 255) rest hs]
  have h1 : 255 - (255 - p) = p := by omega
  have h2 : 255 * ((n - 1) / 255) + ((n - 1) % 255 + 1) = n := by omega
  rw [h1, h2]

theorem ppid_bytesOfRuns : ∀ rs : List (Nat × Nat), (∀ r ∈ rs, 0 < r.2 ∧ r.1 < 256) →
    ppidAux 256 (bytesOfRuns rs) = Except.ok (runsJoin rs) := by
  intro rs
  induction rs with
  | nil => intro _; rfl
  | cons pn rs ih =>
      intro hmem
      obtain ⟨p, n⟩ := pn
      have hpn : 0 < n ∧ p < 256 := hmem (p, n) (by simp)
      rw [bytesOfRuns, List.map_cons, List.flatten_cons]
      rw [show (List.map (fun r => chunkBytesFor r.1 r.2) rs).flatten = bytesOfRuns rs from rfl]
      rw [ppid_run p n _ hpn.2 hpn.1]
      rw [ih (fun r hr => hmem r (by simp [hr]))]
      rfl

theorem ppid_decode_encode (img : List Nat) (hb : ∀ x ∈ img, x < 256) :
    ppidAux 256 (build_palette_image img) = Except.ok img := by
  have hmem : ∀ r ∈ groupRuns img, 0 < r.2 ∧ r.1 < 256 := fun r hr =>
    ⟨groupRuns_pos img r hr, hb r.1 (groupRuns_mem img r hr)⟩
  have henc : build_palette_image img = bytesOfRuns (groupRuns img) := by
    conv_lhs => rw [← groupRuns_join img]
    exact bpi_runs_top (groupRuns img) hmem (groupRuns_chain img)
  rw [henc, ppid_bytesOfRuns (groupRuns img) hmem, groupRuns_join img]

theorem bgraFlat_inj (c1 c2 : Nat × Nat × Nat × Nat) (h : bgraFlat c1 = bgraFlat c2) :
    c1 = c2 := by
  obtain ⟨r1, g1, b1, a1⟩ := c1
  obtain ⟨r2, g2, b2, a2⟩ := c2
  simp [bgraFlat] at h
  simp [h]

theorem bri_step_zero (cc : List Nat) (c : Nat × Nat × Nat × Nat) (acc l : List Nat) :
    briAux cc 0 acc (rgbaFlat c ++ l) = briAux (bgraFlat c) 1 acc l := by
  obtain ⟨r, g, b, a⟩ := c
  rw [show rgbaFlat (r, g, b, a) ++ l = r :: g :: b :: a :: l from rfl]
  rw [briAux, if_neg (by simp)]
  rfl

theorem bri_step_same (c : Nat × Nat × Nat × Nat) (cnt : Nat) (acc l : List Nat)
    (h : cnt < 255) :
    briAux (bgraFlat c) cnt acc (rgbaFlat c ++ l) = briAux (bgraFlat c) (cnt + 1) acc l := by
  obtain ⟨r, g, b, a⟩ := c
  rw [show rgbaFlat (r, g, b, a) ++ l = r :: g :: b :: a :: l from rfl]
  rw [briAux, if_neg (by simp [bgraFlat]; omega)]
  rfl

theorem bri_step_flush255 (cc : List Nat) (c : Nat × Nat × Nat × Nat) (cnt : Nat)
    (acc l : List Nat) (h : 255 ≤ cnt) :
    briAux cc cnt acc (rgbaFlat c ++ l) =
      briAux (bgraFlat c) 1 (acc ++ cc ++ [cnt]) l := by
  obtain ⟨r, g, b, a⟩ := c
  rw [show rgbaFlat (r, g, b, a) ++ l = r :: g :: b :: a :: l from rfl]
  rw [briAux, if_pos (Or.inr h)]
  rfl

theorem bri_step_change (c c2 : Nat × Nat × Nat × Nat) (cnt : Nat) (acc l : List Nat)
    (hne : c2 ≠ c) (hc : 0 < cnt) :
    briAux (bgraFlat c) cnt acc (rgbaFlat c2 ++ l) =
      briAux (bgraFlat c2) 1 (acc ++ bgraFlat c ++ [cnt]) l := by
  have hne2 : bgraFlat c2 ≠ bgraFlat c := fun hb => hne (bgraFlat_inj c2 c hb)
  obtain ⟨r, g, b, a⟩ := c2
  rw [show rgbaFlat (r, g, b, a) ++ l = r :: g :: b :: a :: l from rfl]
  rw [briAux, if_pos (Or.inl ⟨hne2, hc⟩)]
  rfl

theorem bri_finish (cc : List Nat) (cnt : Nat) (acc : List Nat) (h : cnt ≠ 0) :
    briAux cc cnt acc [] = Except.ok (acc ++ cc ++ [cnt]) := by
  rw [briAux, if_pos h]
  rfl

theorem bri_run : ∀ (j : Nat) (c : Nat × Nat × Nat × Nat) (cnt : Nat) (acc l : List Nat),
    0 < cnt → cnt + j ≤ 255 →
    briAux (bgraFlat c) cnt acc ((List.replicate j (rgbaFlat c)).flatten ++ l) =
      briAux (bgraFlat c) (cnt + j) acc l := by
  intro j
  induction j with
  | zero => intro c cnt acc l _ _; simp
  | succ j ih =>
      intro c cnt acc l hc hle
      rw [List.replicate_succ, List.flatten_cons, List.append_assoc]
      rw [bri_step_same c cnt acc _ (by omega)]
      rw [ih c (cnt + 1) acc l (by omega) (by omega)]
      have : cnt + 1 + j = cnt + (j + 1) := by omega
      rw [this]

theorem bri_run_full (c : Nat × Nat × Nat × Nat) : ∀ (n : Nat) (acc l : List Nat),
    briAux (bgraFlat c) 1 acc ((List.replicate n (rgbaFlat c)).flatten ++ l) =
      briAux (bgraFlat c) (n % 255 + 1)
        (acc ++ (List.replicate (n / 255) (bgraFlat c ++ [255])).flatten) l := by
  intro n
  induction n using Nat.strong_induction_on with
  | _ n ih =>
      intro acc l
      by_cases hn : n ≤ 254
      · rw [bri_run n c 1 acc l (by omega) (by omega)]
        have h1 : n / 255 = 0 := by omega
        have h2 : n % 255 = n := by omega
        have h3 : 1 + n = n + 1 := by omega
        rw [h1, h2, h3]
        simp
      · have key : ∀ k : Nat, List.replicate (255 + k) (rgbaFlat c) =
            List.replicate 254 (rgbaFlat c) ++ rgbaFlat c :: List.replicate k (rgbaFlat c) := by
          intro k
          rw [show 255 + k = 254 + (1 + k) by omega, List.replicate_add, List.replicate_add]
          rfl
        have hsplit : List.replicate n (rgbaFlat c) = List.replicate 254 (rgbaFlat c) ++
            rgbaFlat c :: List.replicate (n - 255) (rgbaFlat c) := by
          have hk := key (n - 255)
          rw [show (255 : Nat) + (n - 255) = n from by omega] at hk
          exact hk
        rw [hsplit, List.flatten_append, List.flatten_cons, List.append_assoc,
          List.append_assoc]
        rw [bri_run 254 c 1 acc _ (by omega) (by omega)]
        rw [show (1 : Nat) + 254 = 255 from rfl]
        rw [bri_step_flush255 (bgraFlat c) c 255 acc _ (by omega)]
        rw [ih (n - 255) (by omega)]
        have hm : (n - 255) % 255 = n % 255 := by omega
        have hd : n / 255 = (n - 255) / 255 + 1 := by omega
        rw [hm, hd, List.replicate_succ, List.flatten_cons]
        simp [List.append_assoc]

theorem flatQuads_append (a b : List (Nat × Nat × Nat × Nat)) :
    flatQuads (a ++ b) = flatQuads a ++ flatQuads b := by
  simp [flatQuads]

theorem flatQuads_runsJoin_cons (c : Nat × Nat × Nat × Nat) (n : Nat)
    (rs : List ((Nat × Nat × Nat × Nat) × Nat)) :
    flatQuads (runsJoin ((c, n) :: rs)) =
      (List.replicate n (rgbaFlat c)).flatten ++ flatQuads (runsJoin rs) := by
  rw [runsJoin, List.map_cons, List.flatten_cons]
  rw [show (List.map (fun r => List.replicate r.2 r.1) rs).flatten = runsJoin rs from rfl]
  rw [flatQuads_append]
  rw [flatQuads, List.map_replicate]

theorem flatQuads_runsJoin_split (c : Nat × Nat × Nat × Nat) (m : Nat)
    (rs : List ((Nat × Nat × Nat × Nat) × Nat)) (hm : 0 < m) :
    flatQuads (runsJoin ((c, m) :: rs)) =
      rgbaFlat c ++ ((List.replicate (m - 1) (rgbaFlat c)).flatten ++ flatQuads (runsJoin rs)) := by
  rw [flatQuads_runsJoin_cons]
  rw [show m = (m - 1) + 1 by omega]
  rw [List.replicate_succ, List.flatten_cons, List.append_assoc]
  rw [show (m - 1) + 1 - 1 = m - 1 by omega]

theorem bri_runs : ∀ (rs : List ((Nat × Nat × Nat × Nat) × Nat)) (c : Nat × Nat × Nat × Nat)
    (n : Nat) (acc : List Nat), 0 < n → (∀ r ∈ rs, 0 < r.2) →
    List.Chain' (fun a b => a.1 ≠ b.1) ((c, n) :: rs) →
    briAux (bgraFlat c) 1 acc
        ((List.replicate (n - 1) (rgbaFlat c)).flatten ++ flatQuads (runsJoin rs)) =
      Except.ok (acc ++ rawChunkBytesFor c n ++ rawBytesOfRuns rs) := by
  intro rs
  induction rs with
  | nil =>
      intro c n acc hn _ _
      rw [show flatQuads (runsJoin ([] : List ((Nat × Nat × Nat × Nat) × Nat))) = [] from rfl]
      rw [bri_run_full c (n - 1) acc []]
      rw [bri_finish _ _ _ (by omega)]
      simp [rawChunkBytesFor, rawBytesOfRuns, List.append_assoc]
  | cons qm rs ih =>
      intro c n acc hn hmem hchain
      obtain ⟨q, m⟩ := qm
      have hqm : 0 < m := hmem (q, m) (by simp)
      have hne : c ≠ q := (List.chain'_cons.mp hchain).1
      have hchain2 : List.Chain' (fun a b => a.1 ≠ b.1) ((q, m) :: rs) :=
        (List.chain'_cons.mp hchain).2
      rw [flatQuads_runsJoin_split q m rs hqm]
      rw [bri_run_full c (n - 1) acc _]
      rw [bri_step_change c q ((n - 1) % 255 + 1)
        (acc ++ (List.replicate ((n - 1) / 255) (bgraFlat c ++ [255])).flatten)
        ((List.replicate (m - 1) (rgbaFlat q)).flatten ++ flatQuads (runsJoin rs))
        (Ne.symm hne) (by omega)]
      rw [ih q m _ hqm (fun r hr => hmem r (by simp [hr])) hchain2]
      simp [rawBytesOfRuns, rawChunkBytesFor, List.append_assoc]

theorem bri_runs_top (rs : List ((Nat × Nat × Nat × Nat) × Nat))
    (hmem : ∀ r ∈ rs, 0 < r.2) (hchain : List.Chain' (fun a b => a.1 ≠ b.1) rs) :
    build_raw_image (flatQuads (runsJoin rs)) = Except.ok (rawBytesOfRuns rs) := by
  cases rs with
  | nil => rfl
  | cons cn rs =>
      obtain ⟨c, n⟩ := cn
      have hn : 0 < n := hmem (c, n) (by simp)
      rw [flatQuads_runsJoin_split c n rs hn]
      rw [build_raw_image, bri_step_zero]
      rw [bri_runs rs c n [] hn (fun r hr => hmem r (by simp [hr])) hchain]
      simp [rawBytesOfRuns]

theorem list4induction {α : Type} {motive : List α → Prop} (nil : motive [])
    (one : ∀ a, motive [a]) (two : ∀ a b, motive [a, b])
    (three : ∀ a b c, motive [a, b, c])
    (cons4 : ∀ a b c d l, motive l → motive (a :: b :: c :: d :: l)) : ∀ l, motive l
  | [] => nil
  | [a] => one a
  | [a, b] => two a b
  | [a, b, c] => three a b c
  | a :: b :: c :: d :: l => cons4 a b c d l (list4induction nil one two three cons4 l)

theorem flatQuads_toQuads : ∀ l : List Nat, 4 ∣ l.length → flatQuads (toQuads l) = l := by
  intro l
  induction l using list4induction with
  | nil => intro _; rfl
  | one a => intro h; exfalso; simp at h
  | two a b => intro h; exfalso; simp at h; omega
  | three a b c => intro h; exfalso; simp at h; omega
  | cons4 a b c d l ih =>
      intro h
      have hl : 4 ∣ l.length := by
        simp only [List.length_cons] at h
        omega
      rw [toQuads, flatQuads, List.map_cons, List.flatten_cons]
      rw [show (List.map rgbaFlat (toQuads l)).flatten = flatQuads (toQuads l) from rfl]
      rw [ih hl]
      rfl

theorem prid_cons_eq (c : Nat × Nat × Nat × Nat) (n : Nat) (rest : List Nat) :
    pridAux (bgraFlat c ++ (n :: rest)) =
      (fun d => (List.replicate n (rgbaFlat c)).flatten ++ d) <$> pridAux rest := by
  obtain ⟨r, g, b, a⟩ := c
  rw [show bgraFlat (r, g, b, a) ++ (n :: rest) = b :: g :: r :: a :: n :: rest from rfl]
  rw [pridAux]
  rfl

theorem prid_chunkBytesFor : ∀ (k : Nat) (c : Nat × Nat × Nat × Nat) (r : Nat)
    (rest : List Nat),
    pridAux ((List.replicate k (bgraFlat c ++ [255])).flatten ++
        (bgraFlat c ++ ((r + 1) :: rest))) =
      (fun d => (List.replicate (255 * k + (r + 1)) (rgbaFlat c)).flatten ++ d) <$>
        pridAux rest := by
  intro k
  induction k with
  | zero =>
      intro c r rest
      simp only [List.replicate_zero, List.flatten_nil, List.nil_append]
      rw [prid_cons_eq c (r + 1) rest]
      norm_num
  | succ k ih =>
      intro c r rest
      rw [List.replicate_succ, List.flatten_cons, List.append_assoc, List.append_assoc]
      rw [show [255] ++ ((List.replicate k (bgraFlat c ++ [255])).flatten ++
          (bgraFlat c ++ ((r + 1) :: rest))) =
        (255 : Nat) :: ((List.replicate k (bgraFlat c ++ [255])).flatten ++
          (bgraFlat c ++ ((r + 1) :: rest))) from rfl]
      rw [prid_cons_eq c 255 _]
      rw [ih c r rest]
      cases pridAux rest with
      | error e => rfl
      | ok l =>
          show Except.ok ((List.replicate 255 (rgbaFlat c)).flatten ++
              ((List.replicate (255 * k + (r + 1)) (rgbaFlat c)).flatten ++ l)) =
            Except.ok ((List.replicate (255 * (k + 1) + (r + 1)) (rgbaFlat c)).flatten ++ l)
          rw [← List.append_assoc, ← List.flatten_append, ← List.replicate_add]
          have harith : 255 + (255 * k + (r + 1)) = 255 * (k + 1) + (r + 1) := by ring
          rw [harith]

theorem prid_run (c : Nat × Nat × Nat × Nat) (n : Nat) (rest : List Nat) (hn : 0 < n) :
    pridAux (rawChunkBytesFor c n ++ rest) =
      (fun d => (List.replicate n (rgbaFlat c)).flatten ++ d) <$> pridAux rest := by
  rw [rawChunkBytesFor, List.append_assoc, List.append_assoc]
  rw [show [(n - 1) % 255 + 1] ++ rest = ((n - 1) % 255 + 1) :: rest from rfl]
  rw [prid_chunkBytesFor ((n - 1) / 255) c ((n - 1) % 255) rest]
  have h2 : 255 * ((n - 1) / 255) + ((n - 1) % 255 + 1) = n := by omega
  rw [h2]

theorem prid_rawBytesOfRuns : ∀ rs : List ((Nat × Nat × Nat × Nat) × Nat),
    (∀ r ∈ rs, 0 < r.2) →
    pridAux (rawBytesOfRuns rs) = Except.ok (flatQuads (runsJoin rs)) := by
  intro rs
  induction rs with
  | nil => intro _; rfl
  | cons cn rs ih =>
      intro hmem
      obtain ⟨c, n⟩ := cn
      have hn : 0 < n := hmem (c, n) (by simp)
      rw [rawBytesOfRuns, List.map_cons, List.flatten_cons]
      rw [show (List.map (fun r => rawChunkBytesFor r.1 r.2) rs).flatten =
        rawBytesOfRuns rs from rfl]
      rw [prid_run c n _ hn]
      rw [ih (fun r hr => hmem r (by simp [hr]))]
      rw [flatQuads_runsJoin_cons]
      rfl

theorem bri_encode (img : List Nat) (hd : 4 ∣ img.length) :
    build_raw_image img = Except.ok (rawBytesOfRuns (groupRuns (toQuads img))) := by
  conv_lhs => rw [← flatQuads_toQuads img hd, ← groupRuns_join (toQuads img)]
  exact bri_runs_top (groupRuns (toQuads img))
    (fun r hr => groupRuns_pos (toQuads img) r hr) (groupRuns_chain (toQuads img))

theorem prid_decode_encode (img : List Nat) (hd : 4 ∣ img.length) :
    pridAux (rawBytesOfRuns (groupRuns (toQuads img))) = Except.ok img := by
  rw [prid_rawBytesOfRuns (groupRuns (toQuads img))
    (fun r hr => groupRuns_pos (toQuads img) r hr)]
  rw [groupRuns_join (toQuads img), flatQuads_toQuads img hd]

theorem save_hip_direct_eq (w h : Nat) (img : List Nat) (hd : 4 ∣ img.length)
    (hw : w < 4294967296) (hh : h < 4294967296)
    (hfs : 32 + (rawBytesOfRuns (groupRuns (toQuads img))).length < 4294967296) :
    save_hip (w, h) img [] [] = Except.ok
      ((HIP_SIG ++ u32le 0x125 ++
          u32le (32 + (rawBytesOfRuns (groupRuns (toQuads img))).length) ++
          u32le 0 ++ u32le w ++ u32le h ++ u32le 0x110 ++ u32le 0) ++
        rawBytesOfRuns (groupRuns (toQuads img))) := by
  rw [save_hip, if_neg (by simp), if_pos ⟨rfl, rfl⟩]
  rw [bri_encode img hd]
  simp only [bind, Except.bind]
  rw [build_header_RGBA_eq w h (rawBytesOfRuns (groupRuns (toQuads img))).length hw hh hfs]
  rfl

theorem direct_header_shape (fs w h : Nat) :
    HIP_SIG ++ u32le 0x125 ++ u32le fs ++ u32le 0 ++ u32le w ++ u32le h ++
        u32le 0x110 ++ u32le 0 =
      mkHipHeader 0x125 fs 0 w h 0x110 0 := by
  simp [mkHipHeader, HIP_SIG, List.append_assoc]

theorem roundtrip_direct (w h : Nat) (img b : List Nat)
    (hwh : img.length = 4 * (w * h)) (hw : w < 4294967296) (hh : h < 4294967296)
    (hfs : 32 + (rawBytesOfRuns (groupRuns (toQuads img))).length < 4294967296)
    (hsave : save_hip (w, h) img [] [] = Except.ok b) :
    hipRoundTrip b = Except.ok b := by
  have hd : 4 ∣ img.length := ⟨w * h, hwh⟩
  have hsave2 := save_hip_direct_eq w h img hd hw hh hfs
  rw [hsave2] at hsave
  injection hsave with hb
  subst hb
  rw [direct_header_shape]
  have hparse : parse_header (mkHipHeader 0x125
      (32 + (rawBytesOfRuns (groupRuns (toQuads img))).length) 0 w h 0x110 0 ++
      rawBytesOfRuns (groupRuns (toQuads img))) =
      Except.ok (0, w, h, rawBytesOfRuns (groupRuns (toQuads img))) := by
    rw [parse_header_mk]
    rw [Nat.mod_eq_of_lt hfs]
    rw [if_neg (by simp)]
    rw [if_neg (by simp)]
    rw [Nat.mod_eq_of_lt hw, Nat.mod_eq_of_lt hh]
  have hdecode : parse_raw_image_data w h (rawBytesOfRuns (groupRuns (toQuads img))) =
      Except.ok img := by
    rw [parse_raw_image_data]
    rw [prid_decode_encode img hd]
    simp only [bind, Except.bind]
    rw [if_neg (by omega)]
    rfl
  rw [hipRoundTrip]
  simp only [bind, Except.bind]
  rw [load_hip]
  simp only [bind, Except.bind, hparse]
  rw [if_neg (by omega)]
  simp only [bind, Except.bind, hdecode]
  show save_hip (w, h) img [] [] =
    Except.ok (mkHipHeader 0x125
      (32 + (rawBytesOfRuns (groupRuns (toQuads img))).length) 0 w h 0x110 0 ++
      rawBytesOfRuns (groupRuns (toQuads img)))
  rw [hsave2, direct_header_shape]

theorem buildPaletteAux_ok : ∀ (n : Nat) (pd ad : List Nat), pd.length = 3 * n →
    ad.length = n → ∃ out, buildPaletteAux pd ad = Except.ok out := by
  intro n
  induction n with
  | zero =>
      intro pd ad hpd had
      have h1 : pd = [] := List.eq_nil_of_length_eq_zero (by omega)
      have h2 : ad = [] := List.eq_nil_of_length_eq_zero (by omega)
      subst h1; subst h2
      exact ⟨[], rfl⟩
  | succ n ih =>
      intro pd ad hpd had
      match pd, ad with
      | b :: g :: r :: pd, a :: ad =>
          obtain ⟨out, hout⟩ := ih pd ad (by simp at hpd; omega) (by simp at had; omega)
          exact ⟨b :: g :: r :: a :: out, by rw [buildPaletteAux, hout]; rfl⟩

theorem build_palette_eq (pal al : List Nat) (hpal : pal.length = 768)
    (hal : al.length = 256) :
    ∃ P, build_palette pal al = Except.ok P ∧ P.length = 1024 ∧
      parsePaletteAux P = Except.ok (pal.reverse, al.reverse) := by
  obtain ⟨P, hP⟩ := buildPaletteAux_ok 256 pal.reverse al.reverse (by simp [hpal])
    (by simp [hal])
  refine ⟨P, ?_, ?_, parse_of_build al.reverse pal.reverse P hP⟩
  · rw [build_palette, if_neg (by simp [hpal, hal]), hP]
    simp only [bind, Except.bind]
    rw [if_neg (by rw [build_length al.reverse pal.reverse P hP]; simp [hpal, hal])]
    rfl
  · rw [build_length al.reverse pal.reverse P hP]
    simp [hpal, hal]

theorem parse_palette_of_build (pal al P I : List Nat) (hpal : pal.length = 768)
    (hal : al.length = 256) (hPlen : P.length = 1024)
    (hparse : parsePaletteAux P = Except.ok (pal.reverse, al.reverse)) :
    parse_palette 256 (P ++ I) = Except.ok (pal, al, I) := by
  rw [parse_palette]
  have htake : (P ++ I).take (256 * 4) = P := by
    rw [show (256 : Nat) * 4 = 1024 from rfl, ← hPlen]
    exact List.take_left P I
  have hdrop : (P ++ I).drop (256 * 4) = I := by
    rw [show (256 : Nat) * 4 = 1024 from rfl, ← hPlen]
    exact List.drop_left P I
  rw [htake, hparse]
  simp only [bind, Except.bind]
  rw [if_neg (by simp [hpal, hal])]
  rw [hdrop]
  simp [List.reverse_reverse]
  rfl

theorem save_hip_indexed_eq (w h : Nat) (img pal al P : List Nat)
    (hpal : pal.length = 768) (hal : al.length = 256)
    (hbp : build_palette pal al = Except.ok P) (hPlen : P.length = 1024)
    (hw : w < 4294967296) (hh : h < 4294967296)
    (hfs : 1088 + (build_palette_image img).length < 4294967296) :
    save_hip (w, h) img pal al = Except.ok
      ((HIP_SIG ++ u32le 0x125 ++ u32le (1088 + (build_palette_image img).length) ++
          u32le 256 ++ u32le 0 ++ u32le 0 ++ u32le 0 ++ u32le 32 ++
          u32le w ++ u32le h ++ u32le 0 ++ u32le 0 ++ u32le 0 ++ u32le 0 ++
          u32le 0 ++ u32le 0) ++ P ++ build_palette_image img) := by
  have hpne : pal ≠ [] := by intro hc; rw [hc] at hpal; simp at hpal
  have hane : al ≠ [] := by intro hc; rw [hc] at hal; simp at hal
  rw [save_hip, if_pos ⟨hpne, hane⟩]
  rw [hbp]
  simp only [bind, Except.bind]
  rw [build_header_P_eq w h (build_palette_image img).length P.length hw hh
    (by rw [hPlen]; omega)]
  rw [hPlen]
  rw [show (64 : Nat) + 1024 + (build_palette_image img).length =
    1088 + (build_palette_image img).length by omega]
  rfl

theorem indexed_header_shape (fs w h : Nat) :
    HIP_SIG ++ u32le 0x125 ++ u32le fs ++ u32le 256 ++ u32le 0 ++ u32le 0 ++
        u32le 0 ++ u32le 32 ++ u32le w ++ u32le h ++ u32le 0 ++ u32le 0 ++
        u32le 0 ++ u32le 0 ++ u32le 0 ++ u32le 0 =
      mkHipHeader 0x125 fs 256 0 0 0 32 ++
        ([w, h, 0, 0, 0, 0, 0, 0].map u32le).flatten := by
  simp [mkHipHeader, HIP_SIG, List.append_assoc]

theorem roundtrip_indexed (w h : Nat) (img pal al b : List Nat)
    (hbyte : ∀ x ∈ img, x < 256) (hwh : img.length = w * h)
    (hpal : pal.length = 768) (hal : al.length = 256)
    (hw : w < 4294967296) (hh : h < 4294967296)
    (hfs : 1088 + (build_palette_image img).length < 4294967296)
    (hsave : save_hip (w, h) img pal al = Except.ok b) :
    hipRoundTrip b = Except.ok b := by
  obtain ⟨P, hbp, hPlen, hPparse⟩ := build_palette_eq pal al hpal hal
  have hsave2 := save_hip_indexed_eq w h img pal al P hpal hal hbp hPlen hw hh hfs
  rw [hsave2] at hsave
  injection hsave with hb
  subst hb
  have hparse : parse_header (mkHipHeader 0x125 (1088 + (build_palette_image img).length)
      256 0 0 0 32 ++
      (([w, h, 0, 0, 0, 0, 0, 0].map u32le).flatten ++ (P ++ build_palette_image img))) =
      Except.ok (256, w, h, P ++ build_palette_image img) := by
    have hlen8 : (([w, h, 0, 0, 0, 0, 0, 0].map u32le).flatten ++
        (P ++ build_palette_image img)).length = 1056 + (build_palette_image img).length := by
      simp [u32le, hPlen]
      omega
    have h8 := unpack_flatten [w, h, 0, 0, 0, 0, 0, 0] (P ++ build_palette_image img)
    rw [show ([w, h, 0, 0, 0, 0, 0, 0] : List Nat).length = 8 from rfl] at h8
    rw [parse_header_mk]
    rw [Nat.mod_eq_of_lt hfs]
    rw [if_neg (by rw [hlen8]; omega)]
    rw [Nat.mod_eq_of_lt (show (256 : Nat) < 4294967296 by norm_num)]
    rw [if_pos (by omega), if_neg (by omega)]
    rw [h8]
    simp only [bind, Except.bind]
    simp [Nat.mod_eq_of_lt hw, Nat.mod_eq_of_lt hh]
    rfl
  have hpparse : parse_palette 256 (P ++ build_palette_image img) =
      Except.ok (pal, al, build_palette_image img) :=
    parse_palette_of_build pal al P (build_palette_image img) hpal hal hPlen hPparse
  have hdecode : parse_palette_image_data w h 256 (build_palette_image img) =
      Except.ok img := by
    rw [parse_palette_image_data]
    rw [ppid_decode_encode img hbyte]
    simp only [bind, Except.bind]
    rw [if_neg (by omega)]
    rfl
  rw [indexed_header_shape, List.append_assoc, List.append_assoc]
  rw [hipRoundTrip]
  simp only [bind, Except.bind]
  rw [load_hip]
  simp only [bind, Except.bind, hparse]
  rw [if_pos (by omega)]
  simp only [bind, Except.bind, hpparse, hdecode]
  show save_hip (w, h) img pal al =
    Except.ok (mkHipHeader 0x125 (1088 + (build_palette_image img).length) 256 0 0 0 32 ++
      (([w, h, 0, 0, 0, 0, 0, 0].map u32le).flatten ++ (P ++ build_palette_image img)))
  rw [hsave2, indexed_header_shape, List.append_assoc, List.append_assoc]

/-- C1 (amended): for every HIP byte string that save_hip itself produces
from a consistent container (both indexed and direct-color), loading it
with load_hip and saving the resulting image again reproduces the byte
string exactly.  The original claim over ALL well-formed byte strings is
false: the loader ignores the unknownA header field (and accepts
non-canonical RLE chunkings), while the saver always writes 0x125, so a
well-formed file with a different unknownA value loads fine but does not
round-trip; see the counterexample. -/
theorem c1_roundTrip :
    (∀ w h img pal al b, (∀ x ∈ img, x < 256) → img.length = w * h →
       pal.length = 768 → al.length = 256 →
       w < 4294967296 → h < 4294967296 →
       1088 + (build_palette_image img).length < 4294967296 →
       save_hip (w, h) img pal al = Except.ok b → hipRoundTrip b = Except.ok b) ∧
    (∀ w h img b, img.length = 4 * (w * h) →
       w < 4294967296 → h < 4294967296 →
       32 + (rawBytesOfRuns (groupRuns (toQuads img))).length < 4294967296 →
       save_hip (w, h) img [] [] = Except.ok b → hipRoundTrip b = Except.ok b) :=
  ⟨fun w h img pal al b hb hwh hpal hal hw hh hfs hs =>
     roundtrip_indexed w h img pal al b hb hwh hpal hal hw hh hfs hs,
   fun w h img b hwh hw hh hfs hs => roundtrip_direct w h img b hwh hw hh hfs hs⟩

set_option maxRecDepth 40000 in
/-- C1 witness: the round trip reproduces the encoder output exactly for
a concrete indexed sample and a concrete direct-color sample. -/
theorem c1_roundTrip_witness :
    hipRoundTrip c1IndexedSampleBytes = Except.ok c1IndexedSampleBytes ∧
    hipRoundTrip c1DirectSampleBytes = Except.ok c1DirectSampleBytes :=
  ⟨c1_roundTrip.1 1 1 [3] (List.replicate 768 7) (List.replicate 256 9) c1IndexedSampleBytes
     (by decide) (by decide) (by decide) (by decide) (by decide) (by decide) (by decide) rfl,
   c1_roundTrip.2 1 1 [1, 2, 3, 4] c1DirectSampleBytes
     (by decide) (by decide) (by decide) (by decide) rfl⟩

/-- C1 counterexample: a well-formed direct-color HIP byte string whose
unknownA field is 0 instead of 0x125 loads successfully, but saving the
loaded image produces different bytes (the saver writes 0x125), so the
claim as stated is false for this well-formed input. -/
theorem c1_roundTrip_cex :
    load_hip (mkHipHeader 0 37 0 1 1 0x110 0 ++ [0, 0, 0, 255, 1]) =
      Except.ok ((1, 1), [0, 0, 0, 255], [], []) ∧
    hipRoundTrip (mkHipHeader 0 37 0 1 1 0x110 0 ++ [0, 0, 0, 255, 1]) =
      Except.ok (mkHipHeader 0x125 37 0 1 1 0x110 0 ++ [0, 0, 0, 255, 1]) ∧
    mkHipHeader 0x125 37 0 1 1 0x110 0 ++ [0, 0, 0, 255, 1] ≠
      mkHipHeader 0 37 0 1 1 0x110 0 ++ [0, 0, 0, 255, 1] := by
  exact ⟨by decide, by decide, by decide⟩
